import Mathlib

/-!
Verification of the SiteGenie niche scoring and recommendation pipeline.

This file gives a shallow embedding, in Lean 4, of the niche analysis core of
the repository (src/nicheAnalysis.js) and of the domain candidate scorer
(domain registry module, `scoreDomain`), and proves or refutes the frozen
claims about them.

Modelling conventions:
* JavaScript numbers are modelled as exact rationals (`ℚ`).  All the literals
  appearing in the source (0.2, 0.4, 1.5, ...) are exactly representable, so
  the weighted-sum arithmetic is faithful; binary floating-point rounding is
  not modelled (no claim depends on it).
* `Math.log10` is irrational on most inputs, so it is modelled as an explicit
  parameter `log10 : ℚ → ℚ` threaded through the scoring functions; theorems
  about formulas hold for every choice of `log10`.  Concrete evaluations
  instantiate it with `log10E`, which agrees exactly with `Math.log10` on
  positive integer powers of ten (the only points where concrete theorems
  evaluate it).
* `Math.random()` is modelled as an explicit stream `rand : ℕ → ℚ` together
  with a cursor that is threaded through the computation in the exact order
  in which the JavaScript code consumes random values.
* External collaborators (keyword planner, Ahrefs, Google Trends, the
  database) are modelled as fields of an `Env` record; a call that the
  JavaScript code observes as a thrown error is an `Except.error` value.
* `async`/`await` orchestration: with no API keys configured (the
  configuration all concrete theorems use) every scorer runs synchronously,
  so the fan-out/fan-in of promises consumes the random stream in per-niche
  order; the sequential model below reproduces that order.
-/

namespace SiteGenie

/-! ## Generic helpers -/

/-- Clamp of JavaScript `Math.min(hi, Math.max(lo, x))`. -/
def clampQ (lo hi x : ℚ) : ℚ := min hi (max lo x)

/-- Boolean list-prefix test on characters. -/
def isPrefixList : List Char → List Char → Bool
  | [], _ => true
  | _ :: _, [] => false
  | a :: as, b :: bs => a = b && isPrefixList as bs

/-- Boolean substring (contiguous infix) test on characters. -/
def isInfixList (needle : List Char) : List Char → Bool
  | [] => isPrefixList needle []
  | hay :: rest => isPrefixList needle (hay :: rest) || isInfixList needle rest

/-- JavaScript `hay.includes(needle)` for strings (case-sensitive substring). -/
def strContains (hay needle : String) : Bool := isInfixList needle.data hay.data

/-- Structural floor base-ten logarithm on naturals (fuel-based so that it
reduces definitionally). -/
def natLog10Aux : ℕ → ℕ → ℕ
  | 0, _ => 0
  | fuel + 1, n => if n < 10 then 0 else natLog10Aux fuel (n / 10) + 1

/-- Floor base-ten logarithm of a natural number. -/
def natLog10 (n : ℕ) : ℕ := natLog10Aux n n

/-- Exact base-ten logarithm on positive integer powers of ten, matching
`Math.log10` there (`Math.log10(1) = 0`, `Math.log10(1000) = 3`, ... are exact
in JavaScript); elsewhere this returns 0 and is never used by any theorem in
this file (general theorems quantify over the `log10` parameter instead). -/
def log10E (q : ℚ) : ℚ :=
  if q.den = 1 ∧ 0 < q.num then
    let n := q.num.toNat
    let k := natLog10 n
    if 10 ^ k = n then (k : ℚ) else 0
  else 0

/-! ## Data model (section 3 of the spec) -/

/-- One entry of `top_competitors`. -/
structure Competitor where
  domain : String
  domain_authority : ℚ
  estimated_traffic : ℚ
  deriving DecidableEq, Repr

/-- Candidate niche as built by `generateNicheRecommendations`. -/
structure Niche where
  niche_name : String
  monthly_search_volume : ℚ
  competition : ℚ
  estimated_cpc : ℚ
  related_keywords : List String
  top_competitors : List Competitor
  deriving DecidableEq, Repr

/-- Candidate niche together with the three derived scores. -/
structure ScoredNiche extends Niche where
  competition_score : ℚ
  monetization_potential : ℚ
  trending_score : ℚ
  deriving DecidableEq, Repr

/-! ## Domain candidate scorer (`scoreDomain`, domain registry module) -/

/-- Consonant class of the source regex `[bcdfghjklmnpqrstvwxyz]`. -/
def consonantChars : List Char := "bcdfghjklmnpqrstvwxyz".data

/-- Vowel class of the source regex `[aeiou]`. -/
def vowelChars : List Char := "aeiou".data

/-- Test for the source regex `/([a-z])\1/`: two equal adjacent lowercase
letters. -/
def hasDoubleLetter : List Char → Bool
  | a :: b :: rest => (a = b && 'a' ≤ a && a ≤ 'z') || hasDoubleLetter (b :: rest)
  | _ => false

/-- JavaScript `domain.split('.')` on the character list. -/
def charSplitOnDot : List Char → List (List Char)
  | [] => [[]]
  | c :: rest =>
    match charSplitOnDot rest with
    | [] => [[]]
    | h :: t => if c = '.' then [] :: h :: t else (c :: h) :: t

/-- Discrete features `scoreDomain` reads off the domain string: name length,
TLD (`split('.')[1]`, `none` when there is no dot, like the undefined of the
source), hyphen / digit / double-letter flags, consonant and vowel counts. -/
structure DomainFeatures where
  nameLen : ℕ
  tldChars : Option (List Char)
  hasHyphen : Bool
  hasDigit : Bool
  hasDouble : Bool
  consonants : ℕ
  vowels : ℕ
  deriving DecidableEq, Repr

/-- Feature extraction of `scoreDomain` (domain registry module, lines
152-208): the string-level observations the score is computed from. -/
def domainFeatures (domain : String) : DomainFeatures :=
  let parts := charSplitOnDot domain.data
  let domainName := parts.headD []
  { nameLen := domainName.length,
    tldChars := parts.get? 1,
    hasHyphen := domainName.contains '-',
    hasDigit := domainName.any Char.isDigit,
    hasDouble := hasDoubleLetter domainName,
    consonants := (domainName.filter (consonantChars.contains ·)).length,
    vowels := (domainName.filter (vowelChars.contains ·)).length }

/-- Scoring arithmetic of `scoreDomain`: midpoint 5, length bucket, TLD
reputation, hyphen / digit / double-letter penalties, consonant-to-vowel
pronounceability adjustment (`vowels || 1` in the denominator), final clamp
to [0,10]. -/
def scoreFeatures (ft : DomainFeatures) : ℚ :=
  let score0 : ℚ := 5
  let score1 :=
    if ft.nameLen ≤ 5 then score0 + 2
    else if ft.nameLen ≤ 10 then score0 + 1.5
    else if ft.nameLen ≤ 15 then score0 + 1
    else if 20 < ft.nameLen then score0 - 1
    else score0
  let score2 :=
    if ft.tldChars = some "com".data then score1 + 2
    else if ft.tldChars = some "org".data ∨ ft.tldChars = some "net".data then score1 + 1
    else if ft.tldChars = some "io".data ∨ ft.tldChars = some "co".data then score1 + 0.5
    else score1
  let score3 := if ft.hasHyphen then score2 - 0.5 else score2
  let score4 := if ft.hasDigit then score3 - 0.5 else score3
  let score5 := if ft.hasDouble then score4 - 0.3 else score4
  let cvQuot : ℚ := (ft.consonants : ℚ) / (if ft.vowels = 0 then 1 else (ft.vowels : ℚ))
  let score6 :=
    if 1 ≤ cvQuot ∧ cvQuot ≤ 2.5 then score5 + 1
    else if 2.5 < cvQuot then score5 - 0.5
    else score5
  max 0 (min 10 score6)

/-- Shallow embedding of `scoreDomain` (domain registry module, lines
152-208): the scoring arithmetic applied to the extracted features. -/
def scoreDomain (domain : String) : ℚ := scoreFeatures (domainFeatures domain)

/-! ## External collaborators and environment -/

/-- One page returned by the backlink provider (Ahrefs positions API). -/
structure Page where
  url : String
  domain_rating : ℚ
  organic_traffic : ℚ
  backlinks : ℚ
  deriving DecidableEq, Repr

/-- Raw metrics of the keyword planner API before normalisation. -/
structure RawKeywordMetrics where
  avg_monthly_searches : ℚ
  competition_index : ℚ
  high_top_of_page_bid_micros : ℚ
  deriving DecidableEq, Repr

/-- Keyword Record of section 3 of the spec, as produced by
`fetchKeywordData` on success. -/
structure KeywordRecord where
  keyword : String
  search_volume : ℚ
  competition : ℚ
  cpc : ℚ
  related_keywords : List String
  deriving DecidableEq, Repr

/-- Result of one keyword fetch: the code tags results with a success flag. -/
inductive FetchResult
  | ok (r : KeywordRecord)
  | failed (keyword : String)
  deriving DecidableEq, Repr

/-- Environment of one analysis run: API-key configuration, collaborator
behaviour (an `Except.error` models a call the JavaScript code observes as a
thrown error), the persistence flag `SAVE_ANALYSIS_RESULTS === 'true'` and
database outcome, the `Math.random()` stream, the `Math.log10` model and the
clock. -/
structure Env where
  hasKeywordKey : Bool
  keywordApi : String → Except Unit (Option RawKeywordMetrics)
  relatedApi : String → Except Unit (List String)
  hasAhrefsKey : Bool
  ahrefsApi : String → Except Unit (Option (List Page))
  hasTrendsKey : Bool
  trendsApi : String → Except Unit (List ℚ)
  saveResults : Bool
  persist : List ScoredNiche → Except String Unit
  rand : ℕ → ℚ
  log10 : ℚ → ℚ
  now : String

/-! ## Keyword data provider (`fetchKeywordData`, `mockKeywordData`) -/

/-- Fixed prefix set of the mock related-keyword generator. -/
def mockRelatedPres : List String :=
  ["best", "top", "affordable", "premium", "how to", "why", "when to"]

/-- Fixed suffix set of the mock related-keyword generator. -/
def mockRelatedSufs : List String :=
  ["guide", "tutorial", "review", "tips", "for beginners", "services", "near me"]

/-- Shallow embedding of `mockKeywordData` (nicheAnalysis.js lines 229-253).
The three `Math.random()` calls are consumed in source order (volume,
competition, cpc) from the stream at cursor `c`. -/
def mockKeywordData (rand : ℕ → ℚ) (keyword : String) (c : ℕ) : KeywordRecord × ℕ :=
  let len : ℕ := keyword.length
  let searchVolume : ℚ := (⌊(1000 : ℚ) + ((len : ℚ) * 500) * (0.5 + rand c)⌋ : ℤ)
  let competition : ℚ := min (0.1 + ((len % 10 : ℕ) : ℚ) / 20 + rand (c + 1) * 0.3) 1
  let cpc : ℚ := 0.5 + ((len % 5 : ℕ) : ℚ) * 0.3 + rand (c + 2)
  let relKws := ((mockRelatedPres.map (fun p => p ++ " " ++ keyword)) ++
    (mockRelatedSufs.map (fun s => keyword ++ " " ++ s))).take 10
  ({ keyword := keyword, search_volume := searchVolume, competition := competition,
     cpc := cpc, related_keywords := relKws }, c + 3)

/-- Shallow embedding of `fetchKeywordData` (nicheAnalysis.js lines 156-221):
without an API key, or when the API call throws, the mock fallback is used;
an API response with no results yields a failure marker. -/
def fetchKeywordData (env : Env) (keyword : String) (c : ℕ) : FetchResult × ℕ :=
  if ¬ env.hasKeywordKey then
    let (r, c1) := mockKeywordData env.rand keyword c
    (.ok r, c1)
  else
    match env.keywordApi keyword with
    | .error _ =>
      let (r, c1) := mockKeywordData env.rand keyword c
      (.ok r, c1)
    | .ok none => (.failed keyword, c)
    | .ok (some raw) =>
      let relKws := match env.relatedApi keyword with
        | .error _ => []
        | .ok l => l
      (.ok { keyword := keyword, search_volume := raw.avg_monthly_searches,
             competition := raw.competition_index / 100,
             cpc := raw.high_top_of_page_bid_micros / 1000000,
             related_keywords := relKws }, c)

/-! ## Candidate generation (`generateNicheRecommendations`) -/

/-- Candidate niche built from a keyword record itself. -/
def nicheFromRecord (d : KeywordRecord) : Niche :=
  { niche_name := d.keyword, monthly_search_volume := d.search_volume,
    competition := d.competition, estimated_cpc := d.cpc,
    related_keywords := d.related_keywords, top_competitors := [] }

/-- Derived candidates from the related keywords of one record
(nicheAnalysis.js lines 341-360).  A related keyword shorter than 5
characters or equal to the source keyword is skipped before any random value
is consumed; otherwise one random value scales the volume and, only when the
scaled volume reaches 1000, two more jitter competition and cpc. -/
def relatedNiches (rand : ℕ → ℚ) (d : KeywordRecord) :
    List String → ℕ → List Niche × ℕ
  | [], c => ([], c)
  | rk :: rest, c =>
    if rk.length < 5 ∨ rk = d.keyword then relatedNiches rand d rest c
    else
      let svMod := 0.3 + rand c * 0.7
      let sv : ℚ := (⌊d.search_volume * svMod⌋ : ℤ)
      if 1000 ≤ sv then
        let n : Niche :=
          { niche_name := rk, monthly_search_volume := sv,
            competition := d.competition * (0.8 + rand (c + 1) * 0.4),
            estimated_cpc := d.cpc * (0.8 + rand (c + 2) * 0.4),
            related_keywords := d.keyword ::
              ((d.related_keywords.filter (fun k => k ≠ rk)).take 5),
            top_competitors := [] }
        let (ns, c1) := relatedNiches rand d rest (c + 3)
        (n :: ns, c1)
      else relatedNiches rand d rest (c + 1)

/-- Candidates of all records in order: each record yields itself and then
its derived related-keyword candidates. -/
def generateNichesGo (rand : ℕ → ℚ) : List KeywordRecord → ℕ → List Niche × ℕ
  | [], c => ([], c)
  | d :: rest, c =>
    let (rel, c1) := relatedNiches rand d d.related_keywords c
    let (more, c2) := generateNichesGo rand rest c1
    (nicheFromRecord d :: (rel ++ more), c2)

/-- Shallow embedding of `generateNicheRecommendations` (nicheAnalysis.js
lines 317-375) including the optional industry substring filter. -/
def generateNicheRecommendations (rand : ℕ → ℚ) (records : List KeywordRecord)
    (industry : Option String) (c : ℕ) : List Niche × ℕ :=
  let (niches, c1) := generateNichesGo rand records c
  match industry with
  | some ind =>
    (niches.filter (fun n => strContains n.niche_name ind ||
      n.related_keywords.any (fun k => strContains k ind)), c1)
  | none => (niches, c1)

/-! ## Monetization scorer (`evaluateMonetizationPotential`) -/

/-- Fixed commercial-intent vocabulary of the source, in source order. -/
def commercialVocab : List String :=
  ["buy", "price", "review", "best", "top", "vs", "cheap", "affordable", "deal", "sale"]

/-- The strings scanned for commercial terms: niche name then all related
keywords. -/
def nicheTerms (n : Niche) : List String := n.niche_name :: n.related_keywords

/-- Raw commercial-intent accumulator of the source: one pass over the
vocabulary, adding 0.2 whenever some scanned string contains the term. -/
def commercialIntentScore (n : Niche) : ℚ :=
  commercialVocab.foldl
    (fun acc term =>
      if (nicheTerms n).any (fun s => strContains s term) then acc + 0.2 else acc) 0

/-- Number of distinct vocabulary terms occurring in the niche name or in
at least one related keyword (each term counted once). -/
def matchedTermCount (n : Niche) : ℕ :=
  (commercialVocab.filter
    (fun term => (nicheTerms n).any (fun s => strContains s term))).length

/-- Shallow embedding of `evaluateMonetizationPotential` (nicheAnalysis.js
lines 452-490): cpc factor capped at 5, volume factor capped at 3 (and not
floored), commercial factor capped at 2, final upper clamp at 10 with no
lower clamp. -/
def evaluateMonetizationPotential (log10 : ℚ → ℚ) (n : Niche) : ℚ :=
  let cpcFactor := min 5 (n.estimated_cpc * 2)
  let volumeFactor := min 3 (log10 n.monthly_search_volume - 2)
  let commercialFactor := min 2 (commercialIntentScore n)
  min 10 (cpcFactor + volumeFactor + commercialFactor)

/-! ## Competition scorer (`calculateCompetitionScore`) -/

/-- Shallow embedding of `calculateCompetitionScore` (nicheAnalysis.js lines
383-444).  Returns the score together with the niche, whose
`top_competitors` the enhanced path fills in (the source mutates the niche
in place).  With no backlink key: weighted primary formula clamped to
[0,100]; with a key: provider error falls back to `competition * 80 + 20`, a
response without pages to `competition * 100`, and a page list to the
authority/backlink formula.  The ℚ division of the enhanced path returns 0
at an empty page list where JavaScript would produce NaN; no claim touches
that point. -/
def calculateCompetitionScore (env : Env) (n : Niche) : ℚ × Niche :=
  if ¬ env.hasAhrefsKey then
    let baseScore := n.competition * 100
    let volumeAdjustment := env.log10 n.monthly_search_volume * 2
    let cpcAdjustment := n.estimated_cpc * 5
    let finalScore := baseScore * 0.6 + volumeAdjustment * 0.2 + cpcAdjustment * 0.2
    (min 100 (max 0 finalScore), n)
  else
    match env.ahrefsApi n.niche_name with
    | .error _ => (n.competition * 80 + 20, n)
    | .ok none => (n.competition * 100, n)
    | .ok (some pages) =>
      let topSites := pages.take 10
      let n2 := { n with top_competitors := topSites.map (fun p =>
        { domain := p.url, domain_authority := p.domain_rating,
          estimated_traffic := p.organic_traffic }) }
      let avgDA := (topSites.map Page.domain_rating).sum / (topSites.length : ℚ)
      let avgBL := (topSites.map Page.backlinks).sum / (topSites.length : ℚ)
      (min 100 (avgDA * 0.7 + env.log10 avgBL * 3), n2)

/-! ## Trending scorer (`calculateTrendingScore`) -/

/-- Shallow embedding of `calculateTrendingScore` (nicheAnalysis.js lines
498-567).  Without a trends key: character-code hash mod 60 scaled to [2,8]
plus one random jitter in [-1,1), upper-clamped at 10.  With a key: average
interest and least-squares slope of the series, clamped to [0,10]; a
provider error returns the fixed neutral 5. -/
def calculateTrendingScore (env : Env) (name : String) (c : ℕ) : ℚ × ℕ :=
  if ¬ env.hasTrendsKey then
    let hash : ℕ := (name.data.map Char.toNat).sum
    let baseScore : ℚ := ((hash % 60 : ℕ) : ℚ) / 10 + 2
    (min 10 (baseScore + (env.rand c * 2 - 1)), c + 1)
  else
    match env.trendsApi name with
    | .error _ => (5, c)
    | .ok series =>
      let len : ℕ := series.length
      let avgInterest := series.sum / (len : ℚ)
      let xs : List ℚ := (List.range len).map (fun i => (i : ℚ))
      let sumX := xs.sum
      let sumY := series.sum
      let sumXY := ((xs.zip series).map (fun p => p.1 * p.2)).sum
      let sumXX := (xs.map (fun x => x * x)).sum
      let slope := ((len : ℚ) * sumXY - sumX * sumY) /
        ((len : ℚ) * sumXX - sumX * sumX)
      (min 10 (max 0 (avgInterest / 20 + slope * 20)), c)

/-! ## Filter, rank and limit (step 4 of `analyzeNiche`) -/

/-- Weighted ranking score of the sort comparator (nicheAnalysis.js lines
100-101). -/
def weightedScore (n : ScoredNiche) : ℚ :=
  (10 - n.competition_score) * 0.4 + n.monetization_potential * 0.4 +
    n.trending_score * 0.2

/-- Stable insertion of an element into a list sorted descending by `key`:
the element goes after every strictly greater key and before equal keys of
later input elements. -/
def insertByDesc {α : Type} (key : α → ℚ) (x : α) : List α → List α
  | [] => [x]
  | y :: ys => if key x < key y then y :: insertByDesc key x ys else x :: y :: ys

/-- Stable descending sort by a rational key.  This models the guaranteed
behaviour of `Array.prototype.sort` with the comparator
`(a, b) => scoreB - scoreA` of the source: sorted descending by score,
ties in input order (ECMAScript sort is stable). -/
def sortByDesc {α : Type} (key : α → ℚ) : List α → List α
  | [] => []
  | x :: xs => insertByDesc key x (sortByDesc key xs)

/-- Step 4 of `analyzeNiche` (nicheAnalysis.js lines 95-105): keep candidates
with monetization potential at least 6, sort by descending weighted score,
truncate to the limit. -/
def filterAndRankNiches (scored : List ScoredNiche) (limit : ℕ) : List ScoredNiche :=
  (sortByDesc weightedScore
    (scored.filter (fun n => 6 ≤ n.monetization_potential))).take limit

/-! ## Scoring stage (step 3 of `analyzeNiche`) -/

/-- Step 3 of `analyzeNiche`: score every candidate.  With no API keys (the
configuration of all concrete runs below) the competition scorer consumes no
random values and the trending scorer consumes one per niche in niche order,
matching the microtask interleaving of the source. -/
def scoreNiches (env : Env) : List Niche → ℕ → List ScoredNiche × ℕ
  | [], c => ([], c)
  | n :: rest, c =>
    let (compScore, n2) := calculateCompetitionScore env n
    let mon := evaluateMonetizationPotential env.log10 n2
    let (trend, c1) := calculateTrendingScore env n2.niche_name c
    let (more, c2) := scoreNiches env rest c1
    ({ toNiche := n2, competition_score := compScore,
       monetization_potential := mon, trending_score := trend } :: more, c2)

/-! ## Response shape and orchestration (`analyzeNiche`) -/

/-- JavaScript `parseFloat(x.toFixed(2))`, modelled as exact rounding to two
decimal places (tie behaviour of binary doubles is not modelled; no claim
depends on it). -/
def round2 (q : ℚ) : ℚ := ((round (q * 100) : ℤ) : ℚ) / 100

/-- One entry of `niche_recommendations` in the success response. -/
structure Recommendation where
  niche_name : String
  monthly_search_volume : ℚ
  competition_score : ℚ
  monetization_potential : ℚ
  trending_score : ℚ
  estimated_cpc : ℚ
  related_keywords : List String
  top_competitors : List Competitor
  deriving DecidableEq, Repr

/-- Display mapping applied to each recommended niche (nicheAnalysis.js
lines 116-125): numeric fields rounded to 2 decimals, related keywords
truncated to 10, competitors to 5. -/
def displayNiche (n : ScoredNiche) : Recommendation :=
  { niche_name := n.niche_name, monthly_search_volume := n.monthly_search_volume,
    competition_score := round2 n.competition_score,
    monetization_potential := round2 n.monetization_potential,
    trending_score := round2 n.trending_score,
    estimated_cpc := round2 n.estimated_cpc,
    related_keywords := n.related_keywords.take 10,
    top_competitors := n.top_competitors.take 5 }

/-- One entry of the optional `keyword_data` field. -/
structure KeywordSummary where
  keyword : String
  search_volume : ℚ
  cpc : ℚ
  competition : ℚ
  deriving DecidableEq, Repr

/-- The value `analyzeNiche` resolves to.  Success responses set `success`,
`timestamp` and `niche_recommendations`; failure responses set `success`
false and an `error` string (the catch path also sets `details`). -/
structure AnalysisResult where
  success : Bool
  error : Option String := none
  details : Option String := none
  timestamp : Option String := none
  niche_recommendations : Option (List Recommendation) := none
  keyword_data : Option (List KeywordSummary) := none
  deriving DecidableEq, Repr

/-- Observable side effects of one run, in order: keyword fetch attempts,
the candidate-generation stage, and the optional persistence call. -/
inductive Effect
  | fetchKeyword (kw : String)
  | generateCandidates
  | persistCall
  deriving DecidableEq, Repr

/-- The `keywords` field of the request, as a JavaScript value: absent,
null, an array of strings, or some non-array value.  The validation
`!keywords || !Array.isArray(keywords) || keywords.length === 0` rejects
everything except a non-empty array. -/
inductive KwField
  | undef
  | jsNull
  | arr (l : List String)
  | nonArray
  deriving DecidableEq, Repr

/-- The request option bag of `analyzeNiche` after the source defaults
(`limit = 5`, `preferences = {}`, `includeKeywordData = false`). -/
structure Options where
  keywordsField : KwField := .undef
  limit : Option ℕ := none
  industry : Option String := none
  includeKeywordData : Bool := false

/-- Fetch stage (step 1): one fetch per input keyword, in order, collecting
the fetch trace. -/
def fetchAll (env : Env) : List String → ℕ → List FetchResult × List Effect × ℕ
  | [], c => ([], [], c)
  | kw :: rest, c =>
    let (r, c1) := fetchKeywordData env kw c
    let (rs, tr, c2) := fetchAll env rest c1
    (r :: rs, Effect.fetchKeyword kw :: tr, c2)

/-- The records of the successful fetches, in order. -/
def validOf : List FetchResult → List KeywordRecord
  | [] => []
  | .ok r :: rest => r :: validOf rest
  | .failed _ :: rest => validOf rest

/-- Failure response of the input validation. -/
def inputErrorResult : AnalysisResult :=
  { success := false, error := some "No keywords provided for niche analysis" }

/-- Failure response when no keyword fetch succeeded. -/
def noValidDataResult : AnalysisResult :=
  { success := false,
    error := some "Failed to retrieve valid data for any of the provided keywords" }

/-- Failure response of the outer catch block (nicheAnalysis.js lines
140-147). -/
def analysisFailed (msg : String) : AnalysisResult :=
  { success := false, error := some ("Niche analysis failed: " ++ msg),
    details := some msg }

/-- Message of the TypeError thrown when destructuring a null option bag;
the exact engine wording is irrelevant to every claim. -/
def nullOptionsMessage : String := "Cannot destructure a null options object"

/-- Shallow embedding of `analyzeNiche` (nicheAnalysis.js lines 37-148):
validation, fetch, candidate generation, scoring, filter/rank/limit,
optional persistence, response construction.  A null option bag and a
failing persistence call are the two exceptions reaching the outer catch,
which converts them into a failure response.  The second component is the
trace of observable effects. -/
def analyzeNiche (opts : Option Options) (env : Env) : AnalysisResult × List Effect :=
  match opts with
  | none => (analysisFailed nullOptionsMessage, [])
  | some o =>
    match o.keywordsField with
    | .undef => (inputErrorResult, [])
    | .jsNull => (inputErrorResult, [])
    | .nonArray => (inputErrorResult, [])
    | .arr [] => (inputErrorResult, [])
    | .arr (kw :: kws) =>
      let limit := o.limit.getD 5
      let (results, trace, c1) := fetchAll env (kw :: kws) 0
      let valid := validOf results
      if valid.length = 0 then (noValidDataResult, trace)
      else
        let (niches, c2) := generateNicheRecommendations env.rand valid o.industry c1
        let trace2 := trace ++ [Effect.generateCandidates]
        let (scored, _) := scoreNiches env niches c2
        let filtered := filterAndRankNiches scored limit
        let response : AnalysisResult :=
          { success := true, timestamp := some env.now,
            niche_recommendations := some (filtered.map displayNiche),
            keyword_data :=
              if o.includeKeywordData then
                some (valid.map (fun d =>
                  { keyword := d.keyword, search_volume := d.search_volume,
                    cpc := d.cpc, competition := d.competition }))
              else none }
        if env.saveResults then
          match env.persist filtered with
          | .error e => (analysisFailed e, trace2 ++ [Effect.persistCall])
          | .ok _ => (response, trace2 ++ [Effect.persistCall])
        else (response, trace2)

/-! ## Helper lemmas about the stable descending sort -/

theorem mem_insertByDesc {α : Type} (key : α → ℚ) (x a : α) (l : List α) :
    a ∈ insertByDesc key x l ↔ a = x ∨ a ∈ l := by
  induction l with
  | nil => simp [insertByDesc]
  | cons y ys ih =>
    rw [insertByDesc]
    by_cases hxy : key x < key y
    · rw [if_pos hxy]
      simp only [List.mem_cons, ih]
      tauto
    · rw [if_neg hxy]
      simp only [List.mem_cons]

theorem mem_sortByDesc {α : Type} (key : α → ℚ) (a : α) (l : List α) :
    a ∈ sortByDesc key l ↔ a ∈ l := by
  induction l with
  | nil => simp [sortByDesc]
  | cons x xs ih =>
    rw [sortByDesc, mem_insertByDesc]
    simp [ih]

theorem pairwise_insertByDesc {α : Type} (key : α → ℚ) (x : α) (l : List α)
    (h : l.Pairwise (fun a b => key b ≤ key a)) :
    (insertByDesc key x l).Pairwise (fun a b => key b ≤ key a) := by
  induction l with
  | nil => simp [insertByDesc]
  | cons y ys ih =>
    rw [List.pairwise_cons] at h
    obtain ⟨hy, hys⟩ := h
    rw [insertByDesc]
    by_cases hxy : key x < key y
    · simp only [hxy, if_true, List.pairwise_cons]
      refine ⟨fun a ha => ?_, ih hys⟩
      rcases (mem_insertByDesc key x a ys).mp ha with rfl | ha
      · exact le_of_lt hxy
      · exact hy a ha
    · simp only [hxy, if_false, List.pairwise_cons]
      have hyx : key y ≤ key x := le_of_not_lt hxy
      refine ⟨fun a ha => ?_, ?_⟩
      · rcases List.mem_cons.mp ha with rfl | ha
        · exact hyx
        · exact le_trans (hy a ha) hyx
      · exact ⟨hy, hys⟩

theorem pairwise_sortByDesc {α : Type} (key : α → ℚ) (l : List α) :
    (sortByDesc key l).Pairwise (fun a b => key b ≤ key a) := by
  induction l with
  | nil => simp [sortByDesc]
  | cons x xs ih => exact pairwise_insertByDesc key x _ ih

theorem pairwise_filterAndRankNiches (scored : List ScoredNiche) (limit : ℕ) :
    (filterAndRankNiches scored limit).Pairwise
      (fun a b => weightedScore b ≤ weightedScore a) := by
  unfold filterAndRankNiches
  exact List.Pairwise.sublist (List.take_sublist _ _) (pairwise_sortByDesc weightedScore _)

theorem mem_filterAndRankNiches (scored : List ScoredNiche) (limit : ℕ)
    (n : ScoredNiche) (h : n ∈ filterAndRankNiches scored limit) :
    n ∈ scored.filter (fun m => 6 ≤ m.monetization_potential) := by
  unfold filterAndRankNiches at h
  exact (mem_sortByDesc weightedScore n _).mp (List.take_subset _ _ h)

/-! ## Helper lemma about the commercial-intent fold -/

theorem commercial_foldl (p : String → Bool) (L : List String) (acc : ℚ) :
    L.foldl (fun acc term => if p term then acc + 0.2 else acc) acc =
      acc + 0.2 * ((L.filter p).length : ℚ) := by
  induction L generalizing acc with
  | nil => simp
  | cons t rest ih =>
    by_cases hpt : p t = true
    · rw [List.foldl_cons, List.filter_cons, if_pos hpt, if_pos hpt, ih]
      simp only [List.length_cons]
      push_cast
      ring
    · rw [List.foldl_cons, List.filter_cons, if_neg hpt, if_neg hpt, ih]

/-! ## Concrete instances used by witnesses and counterexamples -/

/-- Environment with no API keys configured, successful persistence (not
requested), and a constant-zero random stream. -/
def primaryEnv : Env :=
  { hasKeywordKey := false, keywordApi := fun _ => Except.ok none,
    relatedApi := fun _ => Except.ok [], hasAhrefsKey := false,
    ahrefsApi := fun _ => Except.ok none, hasTrendsKey := false,
    trendsApi := fun _ => Except.error (), saveResults := false,
    persist := fun _ => Except.ok (), rand := fun _ => 0, log10 := log10E,
    now := "2025-01-01T00:00:00.000Z" }

/-- Niche at a power-of-ten volume, where `log10E` agrees exactly with
`Math.log10`. -/
def primaryNiche : Niche :=
  { niche_name := "hydroponics", monthly_search_volume := 1000, competition := 0.5,
    estimated_cpc := 2, related_keywords := [], top_competitors := [] }

/-- Environment whose backlink provider call throws. -/
def degradedEnv : Env :=
  { primaryEnv with hasAhrefsKey := true, ahrefsApi := fun _ => Except.error () }

/-- Environment with persistence requested and a failing database, as the
end-to-end test simulates (mockClient rejecting every non-BEGIN query). -/
def dbFailEnv (rand : ℕ → ℚ) (f : ℚ → ℚ) : Env :=
  { hasKeywordKey := false, keywordApi := fun _ => Except.ok none,
    relatedApi := fun _ => Except.ok [], hasAhrefsKey := false,
    ahrefsApi := fun _ => Except.ok none, hasTrendsKey := false,
    trendsApi := fun _ => Except.error (), saveResults := true,
    persist := fun _ => Except.error "Database error",
    rand := rand, log10 := f, now := "2025-01-01T00:00:00.000Z" }

/-- Request of the failing-persistence run. -/
def dbFailOptions : Options := { keywordsField := KwField.arr ["hydroponics"] }

/-- Niche violating the claimed lower clamp of the monetization score:
volume 1 (where `Math.log10` is exactly 0), cpc 0, no commercial terms. -/
def nicheCex : Niche :=
  { niche_name := "zzzz", monthly_search_volume := 1, competition := 0,
    estimated_cpc := 0, related_keywords := [], top_competitors := [] }

/-- Scored niche passing the monetization filter, used to witness the
amended range statement. -/
def scoredWitness : ScoredNiche :=
  { niche_name := "buy widgets", monthly_search_volume := 1000, competition := 0.2,
    estimated_cpc := 2, related_keywords := ["best widgets"], top_competitors := [],
    competition_score := 30, monetization_potential := 7, trending_score := 5 }

/-- Candidate A of the ranking example in section 8 of the spec. -/
def nicheA : ScoredNiche :=
  { niche_name := "A", monthly_search_volume := 10000, competition := 0.2,
    estimated_cpc := 2, related_keywords := [], top_competitors := [],
    competition_score := 20, monetization_potential := 8, trending_score := 8 }

/-- Candidate B of the ranking example in section 8 of the spec. -/
def nicheB : ScoredNiche :=
  { niche_name := "B", monthly_search_volume := 10000, competition := 0.8,
    estimated_cpc := 2, related_keywords := [], top_competitors := [],
    competition_score := 80, monetization_potential := 9, trending_score := 2 }

/-! ## Claim C1 -/

/-- C1 counterexample: a niche satisfying all the stated preconditions
(volume 1 ≥ 0, cpc 0 ≥ 0, competition 0 ∈ [0,1]) whose monetization score,
as produced by `evaluateMonetizationPotential`, is -2, violating the claimed
lower bound 0 — the source clamps the score above at 10 but never below
(the volume factor log10(volume) - 2 is negative for volume below 100 and
nothing floors the sum). -/
theorem claim1_counterexample :
    0 ≤ nicheCex.monthly_search_volume ∧ 0 ≤ nicheCex.estimated_cpc ∧
    0 ≤ nicheCex.competition ∧ nicheCex.competition ≤ 1 ∧
    evaluateMonetizationPotential log10E nicheCex = -2 ∧
    ¬ 0 ≤ evaluateMonetizationPotential log10E nicheCex := by
  have hc : commercialIntentScore nicheCex = 0 := rfl
  have hl : log10E (1 : ℚ) = 0 := rfl
  have hv : nicheCex.monthly_search_volume = 1 := rfl
  have hcpc : nicheCex.estimated_cpc = 0 := rfl
  have hcomp : nicheCex.competition = 0 := rfl
  have heval : evaluateMonetizationPotential log10E nicheCex = -2 := by
    simp only [evaluateMonetizationPotential, hc, hl, hv, hcpc]
    norm_num [min_def]
  refine ⟨by rw [hv]; norm_num, by rw [hcpc], by rw [hcomp], by rw [hcomp]; norm_num,
    heval, by rw [heval]; norm_num⟩

/-- C1, amended: the monetization score is clamped above at 10 for every
niche and every log10 model, but not below; the scores actually carried into
the pipeline output (`filterAndRankNiches`, whose image feeds
`niche_recommendations`) all satisfy the ≥ 6 filter, hence lie in [6,10] ⊆
[0,10]. -/
theorem claim1_amended :
    (∀ (f : ℚ → ℚ) (n : Niche), evaluateMonetizationPotential f n ≤ 10) ∧
    (∀ (scored : List ScoredNiche) (limit : ℕ) (n : ScoredNiche),
      n ∈ filterAndRankNiches scored limit → 6 ≤ n.monetization_potential) := by
  constructor
  · intro f n
    simp only [evaluateMonetizationPotential]
    exact min_le_left _ _
  · intro scored limit n hn
    have h := mem_filterAndRankNiches scored limit n hn
    exact of_decide_eq_true (List.mem_filter.mp h).2

/-- Witness for the amended C1 statement at a concrete niche. -/
theorem claim1_amended_witness :
    evaluateMonetizationPotential log10E scoredWitness.toNiche ≤ 10 ∧
    6 ≤ scoredWitness.monetization_potential :=
  ⟨claim1_amended.1 log10E scoredWitness.toNiche,
   claim1_amended.2 [scoredWitness] 5 scoredWitness
     (by norm_num [filterAndRankNiches, sortByDesc, insertByDesc, scoredWitness])⟩

/-! ## Claim C2 -/

/-- C2 is refuted by the code: with persistence enabled and an in-flight
analysis that reaches the persistence step, a failing database makes
`saveAnalysisResults` roll back and rethrow, the outer catch of
`analyzeNiche` swallows the in-flight result, and the caller receives a
failure response instead of the computed recommendations.  The theorem
evaluates the embedded pipeline on the failing input for every random
stream and every log10 model: the outcome is a success-false response, in
contradiction with the claim (and with the repository's own end-to-end
test, which asserts success-true on this very scenario). -/
theorem claim2_persistence_failure_surfaced (rand : ℕ → ℚ) (f : ℚ → ℚ) :
    analyzeNiche (some dbFailOptions) (dbFailEnv rand f) =
      ({ success := false, error := some "Niche analysis failed: Database error",
         details := some "Database error" },
       [Effect.fetchKeyword "hydroponics", Effect.generateCandidates,
        Effect.persistCall]) := rfl

/-! ## Claim C3 -/

/-- Weighted ranking score as worded by the spec sentence of C3. -/
def specWeighted (n : ScoredNiche) : ℚ :=
  0.4 * (10 - n.competition_score) + 0.4 * n.monetization_potential +
    0.2 * n.trending_score

/-- Ranking pipeline as worded by C3: keep candidates with monetization at
least 6, stable-sort descending by the spec weighted score, truncate to the
limit. -/
def specRankedRecommendations (scored : List ScoredNiche) (limit : ℕ) :
    List ScoredNiche :=
  (sortByDesc specWeighted
    (scored.filter (fun n => 6 ≤ n.monetization_potential))).take limit

/-- C3: the step-4 pipeline of `analyzeNiche` (the definition whose image,
mapped through the display truncation, is `niche_recommendations`) equals
the spec ranking — same filter threshold, same weighted key up to ring
rearrangement, same stable descending order with ties in input order, same
truncation — and its output is sorted descending by the spec key with length
at most the limit. -/
theorem claim3_filter_rank_limit (scored : List ScoredNiche) (limit : ℕ) :
    filterAndRankNiches scored limit = specRankedRecommendations scored limit ∧
    (filterAndRankNiches scored limit).Pairwise
      (fun a b => specWeighted b ≤ specWeighted a) ∧
    (filterAndRankNiches scored limit).length ≤ limit := by
  have hkey : specWeighted = weightedScore := by
    funext n
    simp only [specWeighted, weightedScore]
    ring
  refine ⟨?_, ?_, ?_⟩
  · simp only [filterAndRankNiches, specRankedRecommendations, hkey]
  · rw [hkey]
    exact pairwise_filterAndRankNiches scored limit
  · simp only [filterAndRankNiches]
    exact List.length_take_le _ _

/-! ## Claim C4 -/

/-- C4: with no backlink provider configured, the competition score is the
clamped weighted formula, for every model of log10 and hence in particular
for the exact one; the clamp makes the result land in [0,100]
unconditionally. -/
theorem claim4_primary_competition (env : Env) (n : Niche)
    (hkey : env.hasAhrefsKey = false)
    (_hvol : 0 ≤ n.monthly_search_volume) (_hcpc : 0 ≤ n.estimated_cpc)
    (_hc0 : 0 ≤ n.competition) (_hc1 : n.competition ≤ 1) :
    (calculateCompetitionScore env n).1 =
      clampQ 0 100 (0.6 * (n.competition * 100) +
        0.2 * (env.log10 n.monthly_search_volume * 2) +
        0.2 * (n.estimated_cpc * 5)) ∧
    0 ≤ (calculateCompetitionScore env n).1 ∧
    (calculateCompetitionScore env n).1 ≤ 100 := by
  have hform : (calculateCompetitionScore env n).1 =
      min 100 (max 0 (n.competition * 100 * 0.6 +
        env.log10 n.monthly_search_volume * 2 * 0.2 +
        n.estimated_cpc * 5 * 0.2)) := by
    simp [calculateCompetitionScore, hkey]
  refine ⟨?_, ?_, ?_⟩
  · rw [hform, clampQ]
    ring_nf
  · rw [hform]
    exact le_min (by norm_num) (le_max_left _ _)
  · rw [hform]
    exact min_le_left _ _

/-- Witness for C4 at a concrete environment and niche. -/
theorem claim4_primary_competition_witness :
    (calculateCompetitionScore primaryEnv primaryNiche).1 =
      clampQ 0 100 (0.6 * (primaryNiche.competition * 100) +
        0.2 * (primaryEnv.log10 primaryNiche.monthly_search_volume * 2) +
        0.2 * (primaryNiche.estimated_cpc * 5)) ∧
    0 ≤ (calculateCompetitionScore primaryEnv primaryNiche).1 ∧
    (calculateCompetitionScore primaryEnv primaryNiche).1 ≤ 100 :=
  claim4_primary_competition primaryEnv primaryNiche rfl
    (by norm_num [primaryNiche]) (by norm_num [primaryNiche])
    (by norm_num [primaryNiche]) (by norm_num [primaryNiche])

/-! ## Claim C5 -/

/-- C5 counterexample: the engine's weighted score of candidate A
(comp 20, mon 8, trend 8) is 0.8, not the claimed 9.2, and that of B
(comp 80, mon 9, trend 2) is -24, not the claimed 4.8: the source formula
subtracts the whole 0-100 competition score from 10 before weighting, so
the example values of the spec are wrong. -/
theorem claim5_counterexample :
    weightedScore nicheA = 0.8 ∧ weightedScore nicheA ≠ 9.2 ∧
    weightedScore nicheB = -24 ∧ weightedScore nicheB ≠ 4.8 := by
  refine ⟨?_, ?_, ?_, ?_⟩ <;> norm_num [weightedScore, nicheA, nicheB]

/-- C5, amended: the weighted score of A is 0.8 and that of B is -24, and A
is ranked above B by the step-7 sort regardless of the input order. -/
theorem claim5_amended :
    weightedScore nicheA = 0.8 ∧ weightedScore nicheB = -24 ∧
    weightedScore nicheB < weightedScore nicheA ∧
    filterAndRankNiches [nicheA, nicheB] 5 = [nicheA, nicheB] ∧
    filterAndRankNiches [nicheB, nicheA] 5 = [nicheA, nicheB] := by
  have hA : weightedScore nicheA = 0.8 := by norm_num [weightedScore, nicheA]
  have hB : weightedScore nicheB = -24 := by norm_num [weightedScore, nicheB]
  have hmonA : (6 : ℚ) ≤ nicheA.monetization_potential := by norm_num [nicheA]
  have hmonB : (6 : ℚ) ≤ nicheB.monetization_potential := by norm_num [nicheB]
  have hnotAB : ¬ weightedScore nicheA < weightedScore nicheB := by
    rw [hA, hB]; norm_num
  have hBA : weightedScore nicheB < weightedScore nicheA := by
    rw [hA, hB]; norm_num
  refine ⟨hA, hB, hBA, ?_, ?_⟩
  · unfold filterAndRankNiches
    rw [List.filter_cons_of_pos (by simpa using hmonA),
        List.filter_cons_of_pos (by simpa using hmonB), List.filter_nil]
    show (insertByDesc weightedScore nicheA
      (insertByDesc weightedScore nicheB [])).take 5 = [nicheA, nicheB]
    rw [insertByDesc, insertByDesc, if_neg hnotAB]
    rfl
  · unfold filterAndRankNiches
    rw [List.filter_cons_of_pos (by simpa using hmonB),
        List.filter_cons_of_pos (by simpa using hmonA), List.filter_nil]
    show (insertByDesc weightedScore nicheB
      (insertByDesc weightedScore nicheA [])).take 5 = [nicheA, nicheB]
    rw [insertByDesc, insertByDesc, if_pos hBA]
    rfl

/-! ## Claim C6 -/

/-- C6: the commercial-intent factor inside `evaluateMonetizationPotential`
is exactly 0.2 times the number of vocabulary terms occurring
(case-sensitive substring) in the niche name or at least one related
keyword, each term counted once, capped at 2. -/
theorem claim6_commercial_intent (n : Niche) :
    commercialIntentScore n = 0.2 * (matchedTermCount n : ℚ) ∧
    min 2 (commercialIntentScore n) = min 2 (0.2 * (matchedTermCount n : ℚ)) ∧
    min 2 (commercialIntentScore n) ≤ 2 ∧
    (∀ f : ℚ → ℚ, evaluateMonetizationPotential f n =
      min 10 (min 5 (n.estimated_cpc * 2) + min 3 (f n.monthly_search_volume - 2) +
        min 2 (0.2 * (matchedTermCount n : ℚ)))) := by
  have h : commercialIntentScore n = 0.2 * (matchedTermCount n : ℚ) := by
    simp only [commercialIntentScore, matchedTermCount]
    rw [commercial_foldl (fun term => (nicheTerms n).any (fun s => strContains s term))]
    ring
  refine ⟨h, by rw [h], min_le_left _ _, fun f => ?_⟩
  simp only [evaluateMonetizationPotential, h]

/-! ## Claim C7 -/

/-- C7: when the backlink provider call throws, the competition score is
exactly the degraded estimate `competition * 80 + 20` — a different formula
from the primary weighted path, which is not evaluated — and for competition
in [0,1] it lies in [20,100]; the niche is left unmutated. -/
theorem claim7_provider_error_fallback (env : Env) (n : Niche)
    (hkey : env.hasAhrefsKey = true)
    (herr : env.ahrefsApi n.niche_name = Except.error ())
    (hc0 : 0 ≤ n.competition) (hc1 : n.competition ≤ 1) :
    (calculateCompetitionScore env n).1 = n.competition * 80 + 20 ∧
    20 ≤ (calculateCompetitionScore env n).1 ∧
    (calculateCompetitionScore env n).1 ≤ 100 ∧
    (calculateCompetitionScore env n).2 = n := by
  have hform : calculateCompetitionScore env n = (n.competition * 80 + 20, n) := by
    simp [calculateCompetitionScore, hkey, herr]
  rw [hform]
  exact ⟨rfl, by simp; linarith, by simp; linarith, rfl⟩

/-- Witness for C7 at a concrete throwing environment. -/
theorem claim7_provider_error_fallback_witness :
    (calculateCompetitionScore degradedEnv primaryNiche).1 =
      primaryNiche.competition * 80 + 20 ∧
    20 ≤ (calculateCompetitionScore degradedEnv primaryNiche).1 ∧
    (calculateCompetitionScore degradedEnv primaryNiche).1 ≤ 100 ∧
    (calculateCompetitionScore degradedEnv primaryNiche).2 = primaryNiche :=
  claim7_provider_error_fallback degradedEnv primaryNiche rfl rfl
    (by norm_num [primaryNiche]) (by norm_num [primaryNiche])

/-! ## Claim C8 -/

/-- Request whose keywords field is an explicitly empty array, with all the
other options free. -/
def emptyKwOptions (limit : Option ℕ) (ind : Option String) (inc : Bool) : Options :=
  { keywordsField := KwField.arr [], limit := limit, industry := ind,
    includeKeywordData := inc }

/-- C8: an empty keyword array is rejected immediately with a success-false
response carrying the input error string, and the effect trace is empty —
no keyword fetch and no persistence call happen (and hence, the early return
preceding it, no candidate generation). -/
theorem claim8_empty_keywords (env : Env) (limit : Option ℕ)
    (ind : Option String) (inc : Bool) :
    analyzeNiche (some (emptyKwOptions limit ind inc)) env = (inputErrorResult, []) ∧
    inputErrorResult.success = false ∧
    inputErrorResult.error = some "No keywords provided for niche analysis" :=
  ⟨rfl, rfl, rfl⟩

/-! ## Claim C9 -/

/-- C9: the short .com domain outscores the over-long one (8.5 against 6.7),
and every input yields a score clamped to [0,10]; determinism and absence of
input/output are inherent in `scoreDomain` being a pure function of the
string. -/
theorem claim9_domain_scoring :
    scoreDomain "averylongdomainnamewithoutbreaks.com" < scoreDomain "short.com" ∧
    scoreDomain "short.com" = 8.5 ∧
    scoreDomain "averylongdomainnamewithoutbreaks.com" = 6.7 ∧
    ∀ s : String, 0 ≤ scoreDomain s ∧ scoreDomain s ≤ 10 := by
  have hfs : domainFeatures "short.com" =
      { nameLen := 5, tldChars := some "com".data, hasHyphen := false,
        hasDigit := false, hasDouble := false, consonants := 4, vowels := 1 } := by
    decide
  have hfl : domainFeatures "averylongdomainnamewithoutbreaks.com" =
      { nameLen := 32, tldChars := some "com".data, hasHyphen := false,
        hasDigit := false, hasDouble := true, consonants := 19, vowels := 13 } := by
    decide
  have h1 : scoreDomain "short.com" = 8.5 := by
    rw [scoreDomain, hfs]
    norm_num [scoreFeatures, min_def, max_def]
  have h2 : scoreDomain "averylongdomainnamewithoutbreaks.com" = 6.7 := by
    rw [scoreDomain, hfl]
    norm_num [scoreFeatures, min_def, max_def]
  refine ⟨by rw [h1, h2]; norm_num, h1, h2, fun s => ?_⟩
  simp only [scoreDomain, scoreFeatures]
  exact ⟨le_max_left _ _, max_le (by norm_num) (min_le_left _ _)⟩

/-! ## Claim C10 -/

/-- C10: the embedded `analyzeNiche` is a total function (so the promise
never rejects: every throw inside the try block — null option bag,
persistence failure — is converted by the outer catch), and every possible
result is either a success response (error absent, recommendations present)
or a failure response whose `success` is false and whose `error` is a
string. -/
theorem claim10_total_result_shape (opts : Option Options) (env : Env) :
    ((analyzeNiche opts env).1.success = true ∧
     (analyzeNiche opts env).1.error = none ∧
     (analyzeNiche opts env).1.niche_recommendations ≠ none) ∨
    ((analyzeNiche opts env).1.success = false ∧
     ∃ s, (analyzeNiche opts env).1.error = some s) := by
  obtain _ | o := opts
  · right
    exact ⟨rfl, _, rfl⟩
  obtain ⟨kwf, lim, ind, inc⟩ := o
  obtain _ | _ | l | _ := kwf
  · right; exact ⟨rfl, _, rfl⟩
  · right; exact ⟨rfl, _, rfl⟩
  · obtain _ | ⟨kw, kws⟩ := l
    · right; exact ⟨rfl, _, rfl⟩
    · simp only [analyzeNiche]
      split
      · right; exact ⟨rfl, _, rfl⟩
      · split
        · split
          · right; exact ⟨rfl, _, rfl⟩
          · left; exact ⟨rfl, rfl, by simp⟩
        · left; exact ⟨rfl, rfl, by simp⟩
  · right; exact ⟨rfl, _, rfl⟩

end SiteGenie
